import Mathlib

/-
  Verification of the session/credential lifecycle of the tui-chat server
  (src/server/src/routes/handlers/auth.rs).

  The two handlers `login` and `refresh` are embedded as pure functions over
  an explicit `Store` (the `login` and `session` MySQL tables).  Time
  (`SystemTime::now().duration_since(UNIX_EPOCH).as_secs()`) is a `now : Nat`
  parameter, and the two `OsRng.next_u64()` draws a handler performs are the
  parameters `r1` (first draw) and `r2` (second draw).  The hash primitives
  `utils::hash_from_string` and `utils::hash_from_u8` are external to the
  handler file and the spec treats them as opaque one-way functions, so they
  are parameters `hS : String → String` and `hB : List Nat → String`.
  SQL statements are modelled row-by-row: SELECT ... WHERE returns the
  matching rows in table order (the handler uses `result[0]`, i.e. the first
  match, embedded as `List.find?`), INSERT appends a row, UPDATE ... WHERE
  rewrites every matching row, DELETE ... WHERE removes every matching row.
-/

namespace TuiChat

/-- A row of the `login` table: `id`, `username`, `salt`, `pw` (the stored
salted password hash) and the current `refresh_token`. -/
structure Account where
  id : Nat
  username : String
  salt : String
  pw : String
  refresh_token : String
deriving Repr, DecidableEq

/-- A row of the `session` table: owning account `id`, the opaque `session`
token string and the absolute `expire` timestamp in epoch seconds. -/
structure SessionRow where
  id : Nat
  session : String
  expire : Nat
deriving Repr, DecidableEq

/-- The database state: the `login` table and the `session` table. -/
structure Store where
  login : List Account
  session : List SessionRow
deriving Repr, DecidableEq

/-- The only error the two handlers produce (`ApiError::NotAuthorized`). -/
inductive ApiError where
  | NotAuthorized
deriving Repr, DecidableEq

/-- Request body of `login`. -/
structure LoginData where
  username : String
  pw : String
  remember : Bool
deriving Repr, DecidableEq

/-- Request body of `refresh`. -/
structure RefreshData where
  refresh_token : String
deriving Repr, DecidableEq

/-- Response body of both handlers. -/
structure ResponseData where
  session : String
  refresh_token : String
deriving Repr, DecidableEq

def SESSION_REMEMBER_EXPIRE_HOUR : Nat := 24*7

def SESSION_NO_REMEMBER_EXPIRE_MINUTE : Nat := 30

def REFRESHED_SESSION_EXPIRE_HOUR : Nat := 24*7

/-- The 8 little-endian bytes of a `u64` (`u64::to_le_bytes`). -/
def leBytes8 (n : Nat) : List Nat :=
  (List.range 8).map (fun i => n / 256 ^ i % 256)

/-- Bytes of the decimal string of an id (`id.to_string().into_bytes()`). -/
def idBytes (id : Nat) : List Nat :=
  (toString id).data.map Char.toNat

/-- Token construction shared by both handlers: hash the id's string bytes
followed by the 8 random bytes. -/
def mkToken (hB : List Nat → String) (id : Nat) (key : Nat) : String :=
  hB (idBytes id ++ leBytes8 key)

/-- `DELETE FROM session WHERE session = :session`. -/
def deleteSession (s : String) (rows : List SessionRow) : List SessionRow :=
  rows.filter (fun r => r.session ≠ s)

/-- The expired-session sweep of `login`: iterate over the rows of the
account (`SELECT session, expire FROM session WHERE id = :id`) and delete
each one whose expiry is strictly in the past. -/
def sweepExpired (now accId : Nat) (rows : List SessionRow) : List SessionRow :=
  (rows.filter (fun r => r.id == accId)).foldl
    (fun tbl r => if now > r.expire then deleteSession r.session tbl else tbl) rows

/-- Credential verification (lines 29–39 of `login`): look up the first row
with the given username, hash the supplied password concatenated with the
stored salt and compare with the stored `pw` column; return the account id. -/
def verify (hS : String → String) (username pw : String)
    (logins : List Account) : Except ApiError Nat :=
  match logins.find? (fun a => a.username == username) with
  | none => .error .NotAuthorized
  | some acc =>
    if hS (pw ++ acc.salt) != acc.pw then .error .NotAuthorized
    else .ok acc.id

/-- The session expiry policy of `login`, exactly as the source computes it
(note the `60*60*` factor on the MINUTE constant). -/
def policyExpire (now : Nat) (remember : Bool) : Nat :=
  match remember with
  | true => now + 60*60*SESSION_REMEMBER_EXPIRE_HOUR
  | false => now + 60*60*SESSION_NO_REMEMBER_EXPIRE_MINUTE

/-- The `login` handler.  Returns the response (or `NotAuthorized`) together
with the resulting database state. -/
def login (hS : String → String) (hB : List Nat → String) (now r1 r2 : Nat)
    (json_data : LoginData) (store : Store) :
    Except ApiError ResponseData × Store :=
  match verify hS json_data.username json_data.pw store.login with
  | .error e => (.error e, store)
  | .ok id =>
    let swept := sweepExpired now id store.session
    let session := mkToken hB id r1
    let expire := policyExpire now json_data.remember
    let sessionTable := swept ++ [⟨id, session, expire⟩]
    let refresh_token := mkToken hB id r2
    let loginTable := store.login.map
      (fun a => if a.id == id then { a with refresh_token := refresh_token } else a)
    (.ok ⟨session, refresh_token⟩, ⟨loginTable, sessionTable⟩)

/-- The `refresh` handler: look up the account holding the presented refresh
token, mint a new session with a fixed 7-day expiry, and rotate the stored
refresh token. -/
def refresh (hB : List Nat → String) (now r1 r2 : Nat)
    (json_data : RefreshData) (store : Store) :
    Except ApiError ResponseData × Store :=
  match store.login.find? (fun a => a.refresh_token == json_data.refresh_token) with
  | none => (.error .NotAuthorized, store)
  | some acc =>
    let session := mkToken hB acc.id r1
    let expire := now + REFRESHED_SESSION_EXPIRE_HOUR * 3600
    let sessionTable := store.session ++ [⟨acc.id, session, expire⟩]
    let refresh_token := mkToken hB acc.id r2
    let loginTable := store.login.map
      (fun a => if a.id == acc.id then { a with refresh_token := refresh_token } else a)
    (.ok ⟨session, refresh_token⟩, ⟨loginTable, sessionTable⟩)

/-- A concrete hash stand-in used for witnesses only. -/
def testHashS (s : String) : String := "#" ++ s

/-- A concrete byte-hash stand-in used for witnesses only. -/
def testHashB (bs : List Nat) : String :=
  "h" ++ String.intercalate "," (bs.map toString)

/-- Concrete account for witnesses: password "secret1", salt "s1". -/
def acc1 : Account :=
  ⟨1, "alice", "s1", "#secret1s1", "rt1"⟩

/-- Concrete store for witnesses: one account, one expired session (expire
10) and one live session (expire 999999). -/
def store1 : Store :=
  ⟨[acc1], [⟨1, "sA", 10⟩, ⟨1, "sB", 999999⟩]⟩

/-- Unfolding of `login` when the username is found (first match) and the
salted password hash matches the stored one. -/
lemma login_ok_spec (hS : String → String) (hB : List Nat → String)
    (now r1 r2 : Nat) (d : LoginData) (store : Store) (acc : Account)
    (hfind : store.login.find? (fun a => a.username == d.username) = some acc)
    (hpw : hS (d.pw ++ acc.salt) = acc.pw) :
    login hS hB now r1 r2 d store =
      (.ok ⟨mkToken hB acc.id r1, mkToken hB acc.id r2⟩,
        ⟨store.login.map (fun a => if a.id == acc.id then
            { a with refresh_token := mkToken hB acc.id r2 } else a),
          sweepExpired now acc.id store.session ++
            [⟨acc.id, mkToken hB acc.id r1, policyExpire now d.remember⟩]⟩) := by
  simp [login, verify, hfind, hpw]

/-- Unfolding of `login` when no account has the username. -/
lemma login_err_unknown (hS : String → String) (hB : List Nat → String)
    (now r1 r2 : Nat) (d : LoginData) (store : Store)
    (hfind : store.login.find? (fun a => a.username == d.username) = none) :
    login hS hB now r1 r2 d store = (.error .NotAuthorized, store) := by
  simp [login, verify, hfind]

/-- Unfolding of `login` when the username is found but the salted password
hash does not match. -/
lemma login_err_badpw (hS : String → String) (hB : List Nat → String)
    (now r1 r2 : Nat) (d : LoginData) (store : Store) (acc : Account)
    (hfind : store.login.find? (fun a => a.username == d.username) = some acc)
    (hpw : hS (d.pw ++ acc.salt) ≠ acc.pw) :
    login hS hB now r1 r2 d store = (.error .NotAuthorized, store) := by
  simp [login, verify, hfind, hpw]

/-- Unfolding of `refresh` when an account holds the presented token. -/
lemma refresh_ok_spec (hB : List Nat → String) (now r1 r2 : Nat)
    (rd : RefreshData) (store : Store) (acc : Account)
    (hfind : store.login.find? (fun a => a.refresh_token == rd.refresh_token) = some acc) :
    refresh hB now r1 r2 rd store =
      (.ok ⟨mkToken hB acc.id r1, mkToken hB acc.id r2⟩,
        ⟨store.login.map (fun a => if a.id == acc.id then
            { a with refresh_token := mkToken hB acc.id r2 } else a),
          store.session ++
            [⟨acc.id, mkToken hB acc.id r1, now + REFRESHED_SESSION_EXPIRE_HOUR * 3600⟩]⟩) := by
  simp [refresh, hfind]

/-- Unfolding of `refresh` when no account holds the presented token. -/
lemma refresh_err_spec (hB : List Nat → String) (now r1 r2 : Nat)
    (rd : RefreshData) (store : Store)
    (h : ∀ a ∈ store.login, a.refresh_token ≠ rd.refresh_token) :
    refresh hB now r1 r2 rd store = (.error .NotAuthorized, store) := by
  have hf : store.login.find? (fun a => a.refresh_token == rd.refresh_token) = none := by
    rw [List.find?_eq_none]
    intro a ha
    simpa using h a ha
  simp [refresh, hf]

/-- Everything surviving the sweep fold was in the starting table. -/
lemma foldl_delete_subset (now : Nat) :
    ∀ (l rows : List SessionRow) (q : SessionRow),
      q ∈ l.foldl (fun tbl r => if now > r.expire then deleteSession r.session tbl else tbl) rows →
      q ∈ rows := by
  intro l
  induction l with
  | nil => intro rows q h; simpa using h
  | cons r l ih =>
    intro rows q h
    have h' := ih _ q h
    dsimp only at h'
    by_cases hc : now > r.expire
    · rw [if_pos hc] at h'
      exact (List.mem_filter.1 h').1
    · rwa [if_neg hc] at h'

/-- A row sharing its session string with an expired row of the swept list
is removed by the fold. -/
lemma foldl_delete_removes (now : Nat) :
    ∀ (l rows : List SessionRow) (q : SessionRow),
      (∃ r ∈ l, now > r.expire ∧ r.session = q.session) →
      q ∉ l.foldl (fun tbl r => if now > r.expire then deleteSession r.session tbl else tbl) rows := by
  intro l
  induction l with
  | nil => intro rows q h; simp at h
  | cons r l ih =>
    intro rows q h
    rcases h with ⟨r0, hr0, hexp, hsess⟩
    rcases List.mem_cons.1 hr0 with heq | hmem
    · subst heq
      intro hmem'
      have hq : q ∈ (if now > r0.expire then deleteSession r0.session rows else rows) :=
        foldl_delete_subset now l _ q hmem'
      rw [if_pos hexp] at hq
      have := (List.mem_filter.1 hq).2
      simp [hsess] at this
    · exact ih _ q ⟨r0, hmem, hexp, hsess⟩

/-- A row whose session string matches no expired row of the swept list
survives the fold. -/
lemma foldl_delete_keeps (now : Nat) :
    ∀ (l rows : List SessionRow) (q : SessionRow), q ∈ rows →
      (∀ r ∈ l, now > r.expire → r.session ≠ q.session) →
      q ∈ l.foldl (fun tbl r => if now > r.expire then deleteSession r.session tbl else tbl) rows := by
  intro l
  induction l with
  | nil => intro rows q hq _; simpa using hq
  | cons r l ih =>
    intro rows q hq h
    have hq' : q ∈ (if now > r.expire then deleteSession r.session rows else rows) := by
      by_cases hc : now > r.expire
      · rw [if_pos hc]
        refine List.mem_filter.2 ⟨hq, ?_⟩
        have hne : q.session ≠ r.session :=
          fun hh => h r (List.mem_cons_self r l) hc hh.symm
        simpa using hne
      · rwa [if_neg hc]
    exact ih _ q hq' (fun r' hr' => h r' (List.mem_cons_of_mem r hr'))

/-- Rows surviving `sweepExpired` were in the table. -/
lemma sweepExpired_subset (now accId : Nat) (rows : List SessionRow)
    (q : SessionRow) (h : q ∈ sweepExpired now accId rows) : q ∈ rows :=
  foldl_delete_subset now _ rows q h

/-- An expired row of the account is removed by `sweepExpired`. -/
lemma not_mem_sweepExpired (now accId : Nat) (rows : List SessionRow)
    (q : SessionRow) (hq : q ∈ rows) (hid : q.id = accId) (hexp : now > q.expire) :
    q ∉ sweepExpired now accId rows := by
  apply foldl_delete_removes
  exact ⟨q, List.mem_filter.2 ⟨hq, by simp [hid]⟩, hexp, rfl⟩

/-- A row whose session string matches no expired row of the account
survives `sweepExpired`. -/
lemma mem_sweepExpired_of (now accId : Nat) (rows : List SessionRow)
    (q : SessionRow) (hq : q ∈ rows)
    (h : ∀ r ∈ rows, r.id = accId → now > r.expire → r.session ≠ q.session) :
    q ∈ sweepExpired now accId rows := by
  apply foldl_delete_keeps now _ rows q hq
  intro r hr hexp
  have hr' := List.mem_filter.1 hr
  exact h r hr'.1 (by simpa using hr'.2) hexp

/-- C1: a login with `remember = false` at time 1000 inserts a session whose
expiry is `1000 + 60*60*30` (thirty HOURS from now, since the source
multiplies the minute constant by 60*60), not the thirty minutes
(`1000 + 30*60`) the claim states; `remember = true` and `refresh` do get
the claimed 7 days. -/
theorem C1_no_remember_expire_is_30_hours :
    (⟨1, mkToken testHashB 1 3, 1000 + 60*60*30⟩ : SessionRow) ∈
      (login testHashS testHashB 1000 3 4 ⟨"alice", "secret1", false⟩ store1).2.session ∧
    60*60*30 ≠ 30*60 ∧
    (⟨1, mkToken testHashB 1 3, 1000 + 7*24*60*60⟩ : SessionRow) ∈
      (login testHashS testHashB 1000 3 4 ⟨"alice", "secret1", true⟩ store1).2.session ∧
    (⟨1, mkToken testHashB 1 3, 1000 + 7*24*60*60⟩ : SessionRow) ∈
      (refresh testHashB 1000 3 4 ⟨"rt1"⟩ store1).2.session := by
  decide

/-- C3: for an account whose stored `pw` is the hash of the supplied
password concatenated with the stored salt, `login` succeeds with a
response carrying a session token and a refresh token, and afterwards the
account's stored `refresh_token` equals the returned one. -/
theorem C3_login_success_rotates_refresh (hS : String → String)
    (hB : List Nat → String) (now r1 r2 : Nat) (d : LoginData)
    (store : Store) (acc : Account)
    (hfind : store.login.find? (fun a => a.username == d.username) = some acc)
    (hpw : acc.pw = hS (d.pw ++ acc.salt)) :
    ∃ resp : ResponseData,
      (login hS hB now r1 r2 d store).1 = .ok resp ∧
      { acc with refresh_token := resp.refresh_token } ∈
        (login hS hB now r1 r2 d store).2.login ∧
      ∀ a ∈ (login hS hB now r1 r2 d store).2.login, a.id = acc.id →
        a.refresh_token = resp.refresh_token := by
  have hspec := login_ok_spec hS hB now r1 r2 d store acc hfind hpw.symm
  refine ⟨⟨mkToken hB acc.id r1, mkToken hB acc.id r2⟩, ?_, ?_, ?_⟩
  · rw [hspec]
  · rw [hspec]
    refine List.mem_map.2 ⟨acc, List.mem_of_find?_eq_some hfind, ?_⟩
    simp
  · rw [hspec]
    intro a ha hid
    rcases List.mem_map.1 ha with ⟨b, hb, rfl⟩
    dsimp only at hid ⊢
    by_cases hbid : b.id = acc.id
    · simp [hbid]
    · rw [if_neg (by simpa using hbid)] at hid ⊢
      exact absurd hid hbid

/-- C3 witness: the concrete account `acc1` with password "secret1". -/
theorem C3_witness :
    ∃ resp : ResponseData,
      (login testHashS testHashB 1000 3 4 ⟨"alice", "secret1", true⟩ store1).1 = .ok resp ∧
      { acc1 with refresh_token := resp.refresh_token } ∈
        (login testHashS testHashB 1000 3 4 ⟨"alice", "secret1", true⟩ store1).2.login ∧
      ∀ a ∈ (login testHashS testHashB 1000 3 4 ⟨"alice", "secret1", true⟩ store1).2.login,
        a.id = acc1.id → a.refresh_token = resp.refresh_token :=
  C3_login_success_rotates_refresh testHashS testHashB 1000 3 4
    ⟨"alice", "secret1", true⟩ store1 acc1 (by decide) (by decide)

/-- C4: a login with an unknown username fails with `NotAuthorized`, and a
login whose salted password hash mismatches fails with the very same
error; in both cases the returned store is the input store, so no session
row is created and no stored field changes. -/
theorem C4_login_failure_uniform (hS : String → String)
    (hB : List Nat → String) (now r1 r2 : Nat) (d : LoginData) (store : Store) :
    (store.login.find? (fun a => a.username == d.username) = none →
      login hS hB now r1 r2 d store = (.error .NotAuthorized, store)) ∧
    (∀ acc, store.login.find? (fun a => a.username == d.username) = some acc →
      hS (d.pw ++ acc.salt) ≠ acc.pw →
      login hS hB now r1 r2 d store = (.error .NotAuthorized, store)) :=
  ⟨fun h => login_err_unknown hS hB now r1 r2 d store h,
   fun acc h hpw => login_err_badpw hS hB now r1 r2 d store acc h hpw⟩

/-- C4 witness: unknown user "nobody" and wrong password for "alice". -/
theorem C4_witness :
    login testHashS testHashB 1000 3 4 ⟨"nobody", "x", false⟩ store1 =
      (.error .NotAuthorized, store1) ∧
    login testHashS testHashB 1000 3 4 ⟨"alice", "wrong", false⟩ store1 =
      (.error .NotAuthorized, store1) :=
  ⟨(C4_login_failure_uniform testHashS testHashB 1000 3 4
      ⟨"nobody", "x", false⟩ store1).1 (by decide),
   (C4_login_failure_uniform testHashS testHashB 1000 3 4
      ⟨"alice", "wrong", false⟩ store1).2 acc1 (by decide) (by decide)⟩

/-- C7: credential verification hashes the plaintext password followed by
the salt and compares with the stored `pw`: a mismatch yields
`NotAuthorized`, a match yields the account's id; and a `login` whose
verification step fails returns the store unchanged (the verification
step performs no writes). -/
theorem C7_verify_salted_hash (hS : String → String) (u p : String)
    (logins : List Account) :
    (∀ acc, logins.find? (fun a => a.username == u) = some acc →
      (hS (p ++ acc.salt) ≠ acc.pw → verify hS u p logins = .error .NotAuthorized) ∧
      (hS (p ++ acc.salt) = acc.pw → verify hS u p logins = .ok acc.id)) ∧
    (∀ (hB : List Nat → String) (now r1 r2 : Nat) (d : LoginData)
        (store : Store) (e : ApiError),
      verify hS d.username d.pw store.login = .error e →
      login hS hB now r1 r2 d store = (.error e, store)) := by
  constructor
  · intro acc hfind
    constructor
    · intro hne
      simp [verify, hfind, hne]
    · intro heq
      simp [verify, hfind, heq]
  · intro hB now r1 r2 d store e hv
    simp [login, hv]

/-- C7 witness: wrong and right password for the concrete account. -/
theorem C7_witness :
    verify testHashS "alice" "wrong" store1.login = .error .NotAuthorized ∧
    verify testHashS "alice" "secret1" store1.login = .ok 1 :=
  ⟨((C7_verify_salted_hash testHashS "alice" "wrong" store1.login).1
      acc1 (by decide)).1 (by decide),
   ((C7_verify_salted_hash testHashS "alice" "secret1" store1.login).1
      acc1 (by decide)).2 (by decide)⟩

/-- C9: a refresh whose token is held by no account fails with
`NotAuthorized` and returns the store completely unchanged. -/
theorem C9_refresh_unknown_token_atomic (hB : List Nat → String)
    (now r1 r2 : Nat) (rd : RefreshData) (store : Store)
    (h : ∀ a ∈ store.login, a.refresh_token ≠ rd.refresh_token) :
    refresh hB now r1 r2 rd store = (.error .NotAuthorized, store) :=
  refresh_err_spec hB now r1 r2 rd store h

/-- C9 witness: a token held by nobody in the concrete store. -/
theorem C9_witness :
    refresh testHashB 1000 3 4 ⟨"bogus"⟩ store1 = (.error .NotAuthorized, store1) :=
  C9_refresh_unknown_token_atomic testHashB 1000 3 4 ⟨"bogus"⟩ store1 (by decide)

/-- C2: per-account refresh rotation.  When `acc` is the account holding the
presented token (and no other account holds it, and the freshly minted
token differs from it), the refresh succeeds returning a new refresh token,
the account then stores exactly that new token, re-presenting the stale
token fails with `NotAuthorized` leaving the store unchanged, and any token
held by no account likewise fails. -/
theorem C2_refresh_state_machine (hB : List Nat → String)
    (now r1 r2 now' r1' r2' : Nat) (rd : RefreshData) (store : Store) (acc : Account)
    (hfind : store.login.find? (fun a => a.refresh_token == rd.refresh_token) = some acc)
    (honly : ∀ a ∈ store.login, a.refresh_token = rd.refresh_token → a.id = acc.id)
    (hnew : mkToken hB acc.id r2 ≠ rd.refresh_token) :
    (refresh hB now r1 r2 rd store).1 =
      .ok ⟨mkToken hB acc.id r1, mkToken hB acc.id r2⟩ ∧
    (∀ a ∈ (refresh hB now r1 r2 rd store).2.login, a.id = acc.id →
      a.refresh_token = mkToken hB acc.id r2) ∧
    refresh hB now' r1' r2' rd (refresh hB now r1 r2 rd store).2 =
      (.error .NotAuthorized, (refresh hB now r1 r2 rd store).2) ∧
    (∀ u : String,
      (∀ a ∈ (refresh hB now r1 r2 rd store).2.login, a.refresh_token ≠ u) →
      refresh hB now' r1' r2' ⟨u⟩ (refresh hB now r1 r2 rd store).2 =
        (.error .NotAuthorized, (refresh hB now r1 r2 rd store).2)) := by
  have hspec := refresh_ok_spec hB now r1 r2 rd store acc hfind
  have hstale : ∀ a ∈ (refresh hB now r1 r2 rd store).2.login,
      a.refresh_token ≠ rd.refresh_token := by
    rw [hspec]
    intro a ha
    rcases List.mem_map.1 ha with ⟨b, hb, rfl⟩
    by_cases hbid : b.id = acc.id
    · rw [if_pos (by simpa using hbid)]
      exact hnew
    · rw [if_neg (by simpa using hbid)]
      exact fun hh => hbid (honly b hb hh)
  refine ⟨?_, ?_, ?_, ?_⟩
  · rw [hspec]
  · rw [hspec]
    intro a ha hid
    rcases List.mem_map.1 ha with ⟨b, hb, rfl⟩
    by_cases hbid : b.id = acc.id
    · simp [hbid]
    · rw [if_neg (by simpa using hbid)] at hid ⊢
      exact absurd hid hbid
  · exact refresh_err_spec hB now' r1' r2' rd _ hstale
  · intro u hu
    exact refresh_err_spec hB now' r1' r2' ⟨u⟩ _ hu

/-- C2 witness: rotating the concrete token "rt1" of `acc1`. -/
theorem C2_witness :
    (refresh testHashB 1000 3 4 ⟨"rt1"⟩ store1).1 =
      .ok ⟨mkToken testHashB 1 3, mkToken testHashB 1 4⟩ :=
  (C2_refresh_state_machine testHashB 1000 3 4 2000 5 6 ⟨"rt1"⟩ store1 acc1
    (by decide) (by decide) (by decide)).1

/-- C5: a successful login deletes every session row of the account whose
expiry is strictly in the past and keeps every session row of the account
that is not expired, assuming session strings are unique in the table (the
DELETE statement matches on the session string). -/
theorem C5_login_sweeps_only_expired (hS : String → String)
    (hB : List Nat → String) (now r1 r2 : Nat) (d : LoginData)
    (store : Store) (acc : Account)
    (hfind : store.login.find? (fun a => a.username == d.username) = some acc)
    (hpw : acc.pw = hS (d.pw ++ acc.salt))
    (huniq : ∀ r ∈ store.session, ∀ q ∈ store.session, r.session = q.session → r = q) :
    (∀ r ∈ store.session, r.id = acc.id → now > r.expire →
      r ∉ (login hS hB now r1 r2 d store).2.session) ∧
    (∀ r ∈ store.session, r.id = acc.id → now ≤ r.expire →
      r ∈ (login hS hB now r1 r2 d store).2.session) := by
  have hspec := login_ok_spec hS hB now r1 r2 d store acc hfind hpw.symm
  rw [hspec]
  constructor
  · intro r hr hid hexp hmem
    rcases List.mem_append.1 hmem with h1 | h2
    · exact not_mem_sweepExpired now acc.id store.session r hr hid hexp h1
    · have hr2 : r = ⟨acc.id, mkToken hB acc.id r1, policyExpire now d.remember⟩ := by
        simpa using h2
      have hge : now ≤ policyExpire now d.remember := by
        cases hrem : d.remember <;>
          simp [policyExpire, SESSION_REMEMBER_EXPIRE_HOUR,
            SESSION_NO_REMEMBER_EXPIRE_MINUTE]
      rw [hr2] at hexp
      dsimp only at hexp
      omega
  · intro r hr hid hnexp
    refine List.mem_append.2 (Or.inl ?_)
    apply mem_sweepExpired_of now acc.id store.session r hr
    intro q hq hqid hqexp heq
    have hqr : q = r := huniq q hq r hr heq
    rw [hqr] at hqexp
    omega

/-- C5 witness: the expired row "sA" is deleted, the live row "sB" kept. -/
theorem C5_witness :
    (⟨1, "sA", 10⟩ : SessionRow) ∉
      (login testHashS testHashB 1000 3 4 ⟨"alice", "secret1", false⟩ store1).2.session ∧
    (⟨1, "sB", 999999⟩ : SessionRow) ∈
      (login testHashS testHashB 1000 3 4 ⟨"alice", "secret1", false⟩ store1).2.session := by
  have h := C5_login_sweeps_only_expired testHashS testHashB 1000 3 4
    ⟨"alice", "secret1", false⟩ store1 acc1 (by decide) (by decide) (by decide)
  exact ⟨h.1 ⟨1, "sA", 10⟩ (by decide) rfl (by decide),
         h.2 ⟨1, "sB", 999999⟩ (by decide) rfl (by decide)⟩

/-- C6: a failing handler leaves the store untouched, and a succeeding one
rewrites the login table by overwriting exactly the authenticated account's
`refresh_token` with the returned token (the field holds a single value, so
tokens are replaced, never appended). -/
theorem C6_refresh_token_single_overwrite (hS : String → String)
    (hB : List Nat → String) (now r1 r2 : Nat) (d : LoginData)
    (rd : RefreshData) (store : Store) :
    (∀ e, (login hS hB now r1 r2 d store).1 = .error e →
      (login hS hB now r1 r2 d store).2 = store) ∧
    (∀ resp, (login hS hB now r1 r2 d store).1 = .ok resp →
      ∃ id, verify hS d.username d.pw store.login = .ok id ∧
        (login hS hB now r1 r2 d store).2.login = store.login.map
          (fun a => if a.id == id then
            { a with refresh_token := resp.refresh_token } else a)) ∧
    (∀ e, (refresh hB now r1 r2 rd store).1 = .error e →
      (refresh hB now r1 r2 rd store).2 = store) ∧
    (∀ resp, (refresh hB now r1 r2 rd store).1 = .ok resp →
      ∃ acc, store.login.find? (fun a => a.refresh_token == rd.refresh_token) = some acc ∧
        (refresh hB now r1 r2 rd store).2.login = store.login.map
          (fun a => if a.id == acc.id then
            { a with refresh_token := resp.refresh_token } else a)) := by
  refine ⟨?_, ?_, ?_, ?_⟩
  · intro e he
    cases hv : verify hS d.username d.pw store.login with
    | error e' => simp [login, hv]
    | ok id => simp [login, hv] at he
  · intro resp he
    cases hv : verify hS d.username d.pw store.login with
    | error e' => simp [login, hv] at he
    | ok id =>
      refine ⟨id, rfl, ?_⟩
      have h1 : (login hS hB now r1 r2 d store).1 =
          .ok ⟨mkToken hB id r1, mkToken hB id r2⟩ := by
        simp [login, hv]
      rw [h1] at he
      obtain rfl : resp = ⟨mkToken hB id r1, mkToken hB id r2⟩ :=
        (Except.ok.inj he).symm
      simp [login, hv]
  · intro e he
    cases hf : store.login.find? (fun a => a.refresh_token == rd.refresh_token) with
    | none => simp [refresh, hf]
    | some acc => simp [refresh, hf] at he
  · intro resp he
    cases hf : store.login.find? (fun a => a.refresh_token == rd.refresh_token) with
    | none => simp [refresh, hf] at he
    | some acc =>
      refine ⟨acc, rfl, ?_⟩
      have h1 : (refresh hB now r1 r2 rd store).1 =
          .ok ⟨mkToken hB acc.id r1, mkToken hB acc.id r2⟩ := by
        simp [refresh, hf]
      rw [h1] at he
      obtain rfl : resp = ⟨mkToken hB acc.id r1, mkToken hB acc.id r2⟩ :=
        (Except.ok.inj he).symm
      simp [refresh, hf]

/-- C6 witness: a successful login for `acc1` overwrites exactly its
refresh token, and a failing refresh leaves the store unchanged. -/
theorem C6_witness :
    (∃ id, verify testHashS "alice" "secret1" store1.login = .ok id ∧
      (login testHashS testHashB 1000 3 4 ⟨"alice", "secret1", true⟩ store1).2.login =
        store1.login.map (fun a => if a.id == id then
          { a with refresh_token :=
              (⟨mkToken testHashB 1 3, mkToken testHashB 1 4⟩ : ResponseData).refresh_token }
          else a)) ∧
    (refresh testHashB 1000 3 4 ⟨"zzz"⟩ store1).2 = store1 :=
  ⟨(C6_refresh_token_single_overwrite testHashS testHashB 1000 3 4
      ⟨"alice", "secret1", true⟩ ⟨"zzz"⟩ store1).2.1
      ⟨mkToken testHashB 1 3, mkToken testHashB 1 4⟩ rfl,
   (C6_refresh_token_single_overwrite testHashS testHashB 1000 3 4
      ⟨"alice", "secret1", true⟩ ⟨"zzz"⟩ store1).2.2.1 .NotAuthorized rfl⟩

/-- C8: every token is the hash of the account id's decimal-string bytes
followed by the 8 bytes of one random draw, and within one request the
session token uses the first draw `r1` while the refresh token uses the
second, distinct draw `r2`, in both handlers. -/
theorem C8_token_construction (hB : List Nat → String) :
    (∀ i k : Nat, mkToken hB i k = hB (idBytes i ++ leBytes8 k) ∧
      (leBytes8 k).length = 8 ∧ ∀ b ∈ leBytes8 k, b < 256) ∧
    (∀ (hS : String → String) (now r1 r2 : Nat) (d : LoginData) (store : Store)
        (resp : ResponseData), (login hS hB now r1 r2 d store).1 = .ok resp →
      ∃ id, verify hS d.username d.pw store.login = .ok id ∧
        resp.session = mkToken hB id r1 ∧ resp.refresh_token = mkToken hB id r2) ∧
    (∀ (now r1 r2 : Nat) (rd : RefreshData) (store : Store) (resp : ResponseData),
      (refresh hB now r1 r2 rd store).1 = .ok resp →
      ∃ acc, store.login.find? (fun a => a.refresh_token == rd.refresh_token) = some acc ∧
        resp.session = mkToken hB acc.id r1 ∧ resp.refresh_token = mkToken hB acc.id r2) := by
  refine ⟨?_, ?_, ?_⟩
  · intro i k
    refine ⟨rfl, by simp [leBytes8], ?_⟩
    intro b hb
    rcases List.mem_map.1 hb with ⟨j, hj, rfl⟩
    exact Nat.mod_lt _ (by norm_num)
  · intro hS now r1 r2 d store resp he
    cases hv : verify hS d.username d.pw store.login with
    | error e' => simp [login, hv] at he
    | ok id =>
      have h1 : (login hS hB now r1 r2 d store).1 =
          .ok ⟨mkToken hB id r1, mkToken hB id r2⟩ := by
        simp [login, hv]
      rw [h1] at he
      obtain rfl : resp = ⟨mkToken hB id r1, mkToken hB id r2⟩ :=
        (Except.ok.inj he).symm
      exact ⟨id, rfl, rfl, rfl⟩
  · intro now r1 r2 rd store resp he
    cases hf : store.login.find? (fun a => a.refresh_token == rd.refresh_token) with
    | none => simp [refresh, hf] at he
    | some acc =>
      have h1 : (refresh hB now r1 r2 rd store).1 =
          .ok ⟨mkToken hB acc.id r1, mkToken hB acc.id r2⟩ := by
        simp [refresh, hf]
      rw [h1] at he
      obtain rfl : resp = ⟨mkToken hB acc.id r1, mkToken hB acc.id r2⟩ :=
        (Except.ok.inj he).symm
      exact ⟨acc, rfl, rfl, rfl⟩

/-- C8 witness: the concrete login's tokens use the two distinct draws. -/
theorem C8_witness :
    ∃ id, verify testHashS "alice" "secret1" store1.login = .ok id ∧
      (⟨mkToken testHashB 1 3, mkToken testHashB 1 4⟩ : ResponseData).session =
        mkToken testHashB id 3 ∧
      (⟨mkToken testHashB 1 3, mkToken testHashB 1 4⟩ : ResponseData).refresh_token =
        mkToken testHashB id 4 :=
  (C8_token_construction testHashB).2.1 testHashS 1000 3 4
    ⟨"alice", "secret1", false⟩ store1
    ⟨mkToken testHashB 1 3, mkToken testHashB 1 4⟩ rfl

/-- The credential columns of a `login` row: everything except
`refresh_token`. -/
def credFields (a : Account) : Nat × String × String × String :=
  (a.id, a.username, a.salt, a.pw)

/-- The refresh-token overwrite leaves all credential columns of every
account intact. -/
lemma map_credFields_update (l : List Account) (t : String) (id : Nat) :
    (l.map (fun a => if a.id == id then { a with refresh_token := t } else a)).map
      credFields = l.map credFields := by
  induction l with
  | nil => rfl
  | cons a l ih =>
    simp only [List.map_cons, ih, List.cons.injEq, and_true]
    by_cases h : a.id = id
    · simp [credFields, h]
    · simp [credFields, h]

/-- An account with a different id is untouched by the overwrite. -/
lemma mem_map_update_of_ne (l : List Account) (t : String) (id : Nat)
    (a : Account) (ha : a ∈ l) (hne : a.id ≠ id) :
    a ∈ l.map (fun b => if b.id == id then { b with refresh_token := t } else b) := by
  refine List.mem_map.2 ⟨a, ha, ?_⟩
  rw [if_neg (by simpa using hne)]

/-- C10: neither handler changes any account's `id`, `username`, `salt` or
`pw` column (in any outcome); a successful handler keeps every other
account's row intact; a successful login keeps the session rows of every
other account (given unique session strings) and adds none for them; and a
successful refresh keeps every existing session row. -/
theorem C10_frame (hS : String → String) (hB : List Nat → String)
    (now r1 r2 : Nat) (d : LoginData) (rd : RefreshData) (store : Store) :
    (login hS hB now r1 r2 d store).2.login.map credFields =
      store.login.map credFields ∧
    (refresh hB now r1 r2 rd store).2.login.map credFields =
      store.login.map credFields ∧
    (∀ id, verify hS d.username d.pw store.login = .ok id →
      ∀ a ∈ store.login, a.id ≠ id → a ∈ (login hS hB now r1 r2 d store).2.login) ∧
    (∀ acc, store.login.find? (fun a => a.refresh_token == rd.refresh_token) = some acc →
      ∀ a ∈ store.login, a.id ≠ acc.id →
        a ∈ (refresh hB now r1 r2 rd store).2.login) ∧
    ((∀ r ∈ store.session, ∀ q ∈ store.session, r.session = q.session → r = q) →
      ∀ id, verify hS d.username d.pw store.login = .ok id →
      ∀ r ∈ store.session, r.id ≠ id → r ∈ (login hS hB now r1 r2 d store).2.session) ∧
    (∀ id, verify hS d.username d.pw store.login = .ok id →
      ∀ r ∈ (login hS hB now r1 r2 d store).2.session, r.id ≠ id →
        r ∈ store.session) ∧
    (∀ r ∈ store.session, r ∈ (refresh hB now r1 r2 rd store).2.session) := by
  refine ⟨?_, ?_, ?_, ?_, ?_, ?_, ?_⟩
  · cases hv : verify hS d.username d.pw store.login with
    | error e => simp [login, hv]
    | ok id =>
      simp only [login, hv]
      exact map_credFields_update store.login (mkToken hB id r2) id
  · cases hf : store.login.find? (fun a => a.refresh_token == rd.refresh_token) with
    | none => simp [refresh, hf]
    | some acc =>
      simp only [refresh, hf]
      exact map_credFields_update store.login (mkToken hB acc.id r2) acc.id
  · intro id hv a ha hne
    simp only [login, hv]
    exact mem_map_update_of_ne store.login (mkToken hB id r2) id a ha hne
  · intro acc hf a ha hne
    simp only [refresh, hf]
    exact mem_map_update_of_ne store.login (mkToken hB acc.id r2) acc.id a ha hne
  · intro huniq id hv r hr hne
    simp only [login, hv]
    refine List.mem_append.2 (Or.inl ?_)
    apply mem_sweepExpired_of now id store.session r hr
    intro q hq hqid hqexp heq
    have hqr : q = r := huniq q hq r hr heq
    rw [hqr] at hqid
    exact hne hqid
  · intro id hv r hrmem hne
    simp only [login, hv] at hrmem
    rcases List.mem_append.1 hrmem with h1 | h2
    · exact sweepExpired_subset now id store.session r h1
    · have hr2 : r = ⟨id, mkToken hB id r1, policyExpire now d.remember⟩ := by
        simpa using h2
      exact absurd (by rw [hr2]) hne
  · intro r hr
    cases hf : store.login.find? (fun a => a.refresh_token == rd.refresh_token) with
    | none => simpa [refresh, hf] using hr
    | some acc =>
      simp only [refresh, hf]
      exact List.mem_append.2 (Or.inl hr)

/-- C10 witness: a concrete login leaves the credential columns unchanged,
and a concrete refresh keeps the pre-existing session row. -/
theorem C10_witness :
    (login testHashS testHashB 1000 3 4
        ⟨"alice", "secret1", true⟩ store1).2.login.map credFields =
      store1.login.map credFields ∧
    (⟨1, "sB", 999999⟩ : SessionRow) ∈
      (refresh testHashB 1000 3 4 ⟨"rt1"⟩ store1).2.session :=
  ⟨(C10_frame testHashS testHashB 1000 3 4
      ⟨"alice", "secret1", true⟩ ⟨"rt1"⟩ store1).1,
   (C10_frame testHashS testHashB 1000 3 4
      ⟨"alice", "secret1", true⟩ ⟨"rt1"⟩ store1).2.2.2.2.2.2
     ⟨1, "sB", 999999⟩ (by decide)⟩

end TuiChat
